import Mathlib

/-!
Verification of the retrieval-augmented query pipeline of the
hailo-finance-mentor repository.  The definitions below are shallow
embeddings of the TypeScript handlers:

* `askHandler` models the `/api/ask` route (src/app/page.tsx, `askHandler`),
  with the external capabilities (Whisper transcription, OpenAI embedding,
  Pinecone query, GPT chat completion) passed in as oracle functions.
* `uploadHandler` models the `/api/upload` route (src/upload.ts,
  `uploadHandler`) from the point where chunks exist: per-chunk embedding,
  record construction and batched upsert.
* `parseScratchpad` / `parseAnswer` model the response-parsing lines of
  `askHandler` (the regex match on the scratchpad block and the split on
  the `###` marker).
* `chunkText` is modelled from the specification (section 4.1), because the
  repository delegates chunking to the external library class
  `RecursiveCharacterTextSplitter`, whose algorithm is not part of the
  repository.

Strings are handled through their character lists; `leadsWith`, `findSub`,
`splitOnHashes` and `trimChars` reimplement, over `List Char`, exactly the
JavaScript primitives the source uses (`indexOf`-style leftmost search,
`String.prototype.split` with a non-empty separator, `String.prototype.trim`
on the whitespace characters relevant here).
-/

/-! ## String-scanning primitives -/

/-- `leadsWith pat s` is true when `pat` is an initial segment of `s`
(the primitive used to locate literal substrings, as a JavaScript regex or
`indexOf` does). -/
def leadsWith : List Char → List Char → Bool
  | [], _ => true
  | _ :: _, [] => false
  | p :: ps, c :: cs => p == c && leadsWith ps cs

/-- `findSub pat s` is the index of the leftmost occurrence of `pat` in `s`
(JavaScript `String.prototype.indexOf` / leftmost regex match position). -/
def findSub (pat : List Char) : List Char → Option Nat
  | [] => if leadsWith pat [] then some 0 else none
  | c :: cs =>
    if leadsWith pat (c :: cs) then some 0
    else
      match findSub pat cs with
      | none => none
      | some n => some (n + 1)

/-- The `###` marker on which the source splits the model output. -/
def markerL : List Char := ['#', '#', '#']

/-- Fuel-indexed worker for the JavaScript split on the `###` marker; the
fuel is only a structural-termination device and is irrelevant once it
exceeds the length of the input (see `splitHashesFuel_congr`). -/
def splitHashesFuel : Nat → List Char → List (List Char)
  | 0, s => [s]
  | fuel + 1, s =>
    match findSub markerL s with
    | none => [s]
    | some i => s.take i :: splitHashesFuel fuel (s.drop (i + 3))

/-- `splitOnHashes s` reimplements `s.split("###")` from JavaScript:
split at each leftmost, non-overlapping occurrence of the marker. -/
def splitOnHashes (s : List Char) : List (List Char) :=
  splitHashesFuel (s.length + 1) s

/-- The whitespace test of JavaScript trimming, restricted to the
whitespace characters that can occur here. -/
def isWS (c : Char) : Bool := c == ' ' || c == '\t' || c == '\n' || c == '\r'

/-- `trimChars` reimplements `String.prototype.trim`: drop whitespace from
both ends. -/
def trimChars (l : List Char) : List Char :=
  ((l.dropWhile isWS).reverse.dropWhile isWS).reverse

/-! ## The response parser (src/app/page.tsx, `askHandler`, parsing lines) -/

/-- The literal opening delimiter of the reasoning block. -/
def openTagL : List Char := "<scratchpad>".data

/-- The literal closing delimiter of the reasoning block. -/
def closeTagL : List Char := "</scratchpad>".data

/-- Position and length of the leftmost match of the lazy scratchpad regex
of `askHandler` (the block starts at the first opening tag and ends at the
first closing tag after it).  `none` when the regex does not match. -/
def scratchpadSpan (s : List Char) : Option (Nat × Nat) :=
  match findSub openTagL s with
  | none => none
  | some i =>
    match findSub closeTagL (s.drop (i + 12)) with
    | none => none
    | some j => some (i, 12 + j + 13)

/-- Models `scratchpadMatch ? scratchpadMatch[0] : 'No scratchpad content
found.'` from `askHandler`. -/
def parseScratchpad (raw : String) : String :=
  match scratchpadSpan raw.data with
  | none => "No scratchpad content found."
  | some (i, len) => String.mk ((raw.data.drop i).take len)

/-- Models `responseContent.replace(scratchpadRegex, '')`: remove the first
regex match, keep everything else. -/
def removeScratchpad (s : List Char) : List Char :=
  match scratchpadSpan s with
  | none => s
  | some (i, len) => s.take i ++ s.drop (i + len)

/-- Models the final-answer line of `askHandler`:
`responseContent.split('###')?.[1]?.trim() || responseContent.replace(scratchpadRegex, '').trim()`. -/
def parseAnswer (raw : String) : String :=
  match (splitOnHashes raw.data).get? 1 with
  | none => String.mk (trimChars (removeScratchpad raw.data))
  | some seg =>
    if trimChars seg = [] then String.mk (trimChars (removeScratchpad raw.data))
    else String.mk (trimChars seg)

/-- The literal segment of `s` between the first occurrence of the marker
(at index `i`) and the next occurrence (or the end of `s`).  Used to state,
independently of the parser, what text stands after the first marker. -/
def betweenFirstMarkers (s : List Char) (i : Nat) : List Char :=
  match findSub markerL (s.drop (i + 3)) with
  | none => s.drop (i + 3)
  | some j => (s.drop (i + 3)).take j

/-- The raw output contains a reasoning block: an opening delimiter with a
closing delimiter somewhere after it. -/
def hasScratchpadBlock (s : List Char) : Prop :=
  ∃ i j, leadsWith openTagL (s.drop i) = true ∧
    leadsWith closeTagL (s.drop (i + 12 + j)) = true

/-! ## The ask pipeline (src/app/page.tsx, `askHandler`) -/

/-- `joinSep sep l` reimplements JavaScript `Array.prototype.join` with a
non-empty list semantics identical to the source use. -/
def joinSep (sep : String) : List String → String
  | [] => ""
  | [t] => t
  | t :: rest => t ++ sep ++ joinSep sep rest

/-- The separator placed between retrieved chunk texts. -/
def contextSeparator : String := "\n\n---\n\n"

/-- The marker returned when embedding or the Pinecone query raises. -/
def contextUnavailable : String := "Error retrieving context from knowledge base."

/-- The marker returned when the query succeeds with no usable match text. -/
def noRelevantContext : String := "No relevant context found."

/-- Models the retrieval block of `askHandler` (step 2 of the pipeline):
embed the query, query Pinecone, and format the context.  `embedQuery` and
`queryIndex` are the external capabilities; a query success carries the
optional metadata text of each match in the order Pinecone returned them
(descending score).  An absent `matches` array behaves like a query with no
usable text, exactly as the optional chain in the source does. -/
def retrieveContext {V : Type} (embedQuery : String → Except String V)
    (queryIndex : V → Except String (List (Option String)))
    (queryText : String) : String :=
  match embedQuery queryText with
  | .error _ => contextUnavailable
  | .ok v =>
    match queryIndex v with
    | .error _ => contextUnavailable
    | .ok hits =>
      let texts := (hits.filterMap id).filter (fun t => !(t == ""))
      let joined := joinSep contextSeparator texts
      if joined = "" then noRelevantContext else joined

/-- The system prompt template of `askHandler`, with the retrieved context
spliced in. -/
def systemPrompt (context : String) : String :=
  "You are a finance professor.\nThink step-by-step in <scratchpad>...</scratchpad> then after ### give the final answer.\nUse the following context to answer the question:\n\nContext:\n"
    ++ context

/-- The multipart input of the `/api/ask` route: an optional uploaded audio
file and an optional `question` form field. -/
structure AskRequest where
  audio : Option String
  question : Option String

/-- The observable outcome of one `/api/ask` request: the HTTP status, the
JSON fields of the body (absent fields are `none`), and whether the
temporary audio file written by multer is still on disk when the handler
returns. -/
structure AskResponse where
  status : Nat
  error : Option String
  details : Option String
  transcription : Option String
  answer : Option String
  scratchpad : Option String
  tempAudioRemains : Bool
deriving DecidableEq

/-- Shallow embedding of `askHandler` (src/app/page.tsx).  The external
capabilities are oracles: `transcribe` (Whisper), `embedQuery` (OpenAI
embeddings), `queryIndex` (Pinecone), `chatComplete` (GPT-4o, given the
system prompt and the user message; the empty string stands for the absent
content that makes the source throw).  The body follows the source line by
line: reject when no audio was uploaded; transcribe (an error returns 500
without deleting the temporary file); delete the temporary file; fall back
from the `question` field to the transcription; reject an empty query;
retrieve context (never fatal); call the model (an error or empty content
returns 500); parse and answer 200. -/
def askHandler {V : Type} (transcribe : String → Except String String)
    (embedQuery : String → Except String V)
    (queryIndex : V → Except String (List (Option String)))
    (chatComplete : String → String → Except String String)
    (req : AskRequest) : AskResponse :=
  match req.audio with
  | none => ⟨400, some "No audio file uploaded.", none, none, none, none, false⟩
  | some audioFile =>
    match transcribe audioFile with
    | .error e =>
      ⟨500, some "Failed to transcribe audio.", some e, none, none, none, true⟩
    | .ok transcription =>
      let queryText :=
        match req.question with
        | some q => if q = "" then transcription else q
        | none => transcription
      if queryText = "" then
        ⟨400, some "No query provided (either question text or audio transcription).",
          none, none, none, none, false⟩
      else
        let context := retrieveContext embedQuery queryIndex queryText
        match chatComplete (systemPrompt context) queryText with
        | .error e =>
          ⟨500, some "Failed to get answer from AI model.", some e, none, none, none, false⟩
        | .ok content =>
          if content = "" then
            ⟨500, some "Failed to get answer from AI model.",
              some "No response content from GPT-4o", none, none, none, false⟩
          else
            ⟨200, none, none, some transcription, some (parseAnswer content),
              some (parseScratchpad content), false⟩

/-! ## The upload pipeline (src/upload.ts, `uploadHandler`) -/

/-- One chunk produced by the splitter: its page content and the page
number recorded in its metadata. -/
structure Chunk where
  pageContent : String
  pageNumber : Nat
deriving DecidableEq

/-- One record prepared for the Pinecone upsert, as built in the embedding
loop of `uploadHandler`. -/
structure PineRecord (V : Type) where
  id : String
  values : V
  metadataText : String
  source : String
  pageNumber : Nat
deriving DecidableEq

/-- The embedding loop of `uploadHandler`: embed each chunk in order and
build its record with id `fileName-chunk-i`; the first embedding error
aborts the loop (and with it the whole ingestion). -/
def buildVectorsFrom {V : Type} (embed : String → Except String V)
    (fileName : String) : Nat → List Chunk → Except String (List (PineRecord V))
  | _, [] => .ok []
  | i, c :: rest =>
    match embed c.pageContent with
    | .error e => .error e
    | .ok vec =>
      match buildVectorsFrom embed fileName (i + 1) rest with
      | .error e => .error e
      | .ok tail =>
        .ok ({ id := fileName ++ "-chunk-" ++ toString i, values := vec,
               metadataText := c.pageContent, source := fileName,
               pageNumber := c.pageNumber } :: tail)

/-- The Pinecone batch size constant of `uploadHandler`. -/
def batchSize : Nat := 100

/-- Outcome of the batched upsert loop: the batches that were written
successfully, in order, and the first upsert error if one occurred. -/
structure UpsertOutcome (V : Type) where
  written : List (List (PineRecord V))
  err : Option String
deriving DecidableEq

/-- Fuel-indexed worker of the batched upsert loop of `uploadHandler`:
slice off `batchSize` records, upsert them, stop at the first error. -/
def upsertLoopFuel {V : Type} (upsert : List (PineRecord V) → Except String Unit) :
    Nat → List (PineRecord V) → UpsertOutcome V
  | 0, _ => ⟨[], none⟩
  | _ + 1, [] => ⟨[], none⟩
  | fuel + 1, v :: vs =>
    let batch := (v :: vs).take batchSize
    match upsert batch with
    | .error e => ⟨[], some e⟩
    | .ok _ =>
      let rest := upsertLoopFuel upsert fuel ((v :: vs).drop batchSize)
      ⟨batch :: rest.written, rest.err⟩

/-- The batched upsert loop of `uploadHandler` (fuel instantiated so that
it never runs out). -/
def upsertLoop {V : Type} (upsert : List (PineRecord V) → Except String Unit)
    (vectors : List (PineRecord V)) : UpsertOutcome V :=
  upsertLoopFuel upsert (vectors.length + 1) vectors

/-- The observable outcome of the embedding-and-upsert phase of one
`/api/upload` request: the response (`.ok` with the `chunksEmbedded` count,
or `.error` with the fixed error message of the route) together with the
batches actually written to the index. -/
structure UploadResult (V : Type) where
  response : Except String Nat
  written : List (List (PineRecord V))

/-- Shallow embedding of the core of `uploadHandler` (src/upload.ts) from
the point where the chunks of the document exist: embed every chunk (any
embedding failure aborts with the fixed message and nothing is upserted);
then upsert in batches of `batchSize` (a failure aborts with the fixed
message, the batches already written stay written); on success respond with
the number of embedded chunks. -/
def uploadHandler {V : Type} (embed : String → Except String V)
    (upsert : List (PineRecord V) → Except String Unit)
    (fileName : String) (chunks : List Chunk) : UploadResult V :=
  match buildVectorsFrom embed fileName 0 chunks with
  | .error _ => ⟨.error "Failed to generate embeddings.", []⟩
  | .ok vectors =>
    if vectors.length > 0 then
      let out := upsertLoop upsert vectors
      match out.err with
      | some _ => ⟨.error "Failed to save embeddings to database.", out.written⟩
      | none => ⟨.ok vectors.length, out.written⟩
    else
      ⟨.ok vectors.length, []⟩

/-! ## The chunker (specification section 4.1)

The repository delegates chunking to the external library class
`RecursiveCharacterTextSplitter` with `chunkSize := 1000` and
`chunkOverlap := 200`; the algorithm of that class is not part of the
repository, so the chunker below is modelled from the specification. -/

/-- Modelled from the spec: the sliding-window chunker of section 4.1
(`RecursiveCharacterTextSplitter` itself is external library code).  It
emits consecutive windows of `size` characters whose starts are
`size - overlap` apart, until the remaining text is exhausted; the final
chunk may be shorter than `size`. -/
def chunkText (size overlap : Nat) (s : List Char) : List (List Char) :=
  if _h : size ≤ overlap then [s]
  else
    if s.length ≤ size then [s]
    else s.take size :: chunkText size overlap (s.drop (size - overlap))
termination_by s.length
decreasing_by
  simp only [List.length_drop]
  omega

/-! ## Concrete scenarios used by the witnesses and counterexamples -/

/-- A transcription oracle that always succeeds. -/
def txOk : String → Except String String := fun _ => .ok "hello there"

/-- A transcription oracle that always fails (Whisper outage). -/
def txFail : String → Except String String := fun _ => .error "whisper failed"

/-- An embedding oracle that always succeeds (vector type `Unit`). -/
def embedOkU : String → Except String Unit := fun _ => .ok ()

/-- An embedding oracle that always fails. -/
def embedFailU : String → Except String Unit := fun _ => .error "embed down"

/-- An index-query oracle that succeeds with zero matches. -/
def queryOkEmpty : Unit → Except String (List (Option String)) := fun _ => .ok []

/-- An index-query oracle that always fails. -/
def queryFailU : Unit → Except String (List (Option String)) := fun _ => .error "index down"

/-- An index-query oracle returning two matches in descending-score order. -/
def queryTwoU : Unit → Except String (List (Option String)) :=
  fun _ => .ok [some "high score chunk", some "low score chunk"]

/-- A generation oracle that returns a fixed well-formed completion. -/
def genOk : String → String → Except String String :=
  fun _ _ => .ok "<scratchpad>think</scratchpad>### fine"

/-- A generation oracle that always fails. -/
def genFail : String → String → Except String String := fun _ _ => .error "gpt down"

/-- A request carrying an audio recording and no text question. -/
def reqAudio : AskRequest := ⟨some "recording.webm", none⟩

/-- A request carrying a text question and no audio. -/
def reqTextOnly : AskRequest := ⟨none, some "What is NPV?"⟩

/-- An embedding oracle failing exactly on the empty chunk. -/
def embedFailEmptyU : String → Except String Unit :=
  fun t => if t = "" then .error "embedding failed" else .ok ()

/-- An upsert oracle that always succeeds. -/
def upsOkU : List (PineRecord Unit) → Except String Unit := fun _ => .ok ()

/-- An upsert oracle failing on every batch (so on the first one). -/
def upsFail1 : List (PineRecord Unit) → Except String Unit :=
  fun _ => .error "pinecone down"

/-- An upsert oracle accepting full batches and failing on the first
short batch (so the second batch of a 101-record ingestion). -/
def upsFail2 : List (PineRecord Unit) → Except String Unit :=
  fun b => if b.length = batchSize then .ok () else .error "pinecone down"

/-- A single-chunk document. -/
def chunks1 : List Chunk := [⟨"t", 0⟩]

/-- A 101-chunk document, forcing two upsert batches. -/
def chunks101 : List Chunk := List.replicate 101 ⟨"t", 0⟩

/-- A two-chunk document whose second chunk makes `embedFailEmptyU` fail. -/
def chunksWithBad : List Chunk := [⟨"good text", 1⟩, ⟨"", 2⟩]

/-- The 2500-character document of the end-to-end example of the spec. -/
def doc2500 : List Char := List.replicate 2500 'a'

/-- The chunks of `doc2500`, as fed to the ingestion handler. -/
def doc2500Chunks : List Chunk :=
  (chunkText 1000 200 doc2500).map (fun l => ⟨String.mk l, 0⟩)

/-! ## Lemmas about the string-scanning primitives -/

theorem leadsWith_iff (pat s : List Char) :
    leadsWith pat s = true ↔ ∃ t, s = pat ++ t := by
  induction pat generalizing s with
  | nil => simp [leadsWith]
  | cons p ps ih =>
    cases s with
    | nil => simp [leadsWith]
    | cons c cs =>
      simp only [leadsWith, Bool.and_eq_true, beq_iff_eq, ih]
      constructor
      · rintro ⟨rfl, t, rfl⟩; exact ⟨t, rfl⟩
      · rintro ⟨t, h⟩
        cases h
        exact ⟨rfl, t, rfl⟩

theorem findSub_some (pat s : List Char) (i : Nat)
    (h : findSub pat s = some i) : ∃ t, s.drop i = pat ++ t := by
  induction s generalizing i with
  | nil =>
    by_cases hp : leadsWith pat [] = true
    · simp only [findSub, hp, if_true, Option.some.injEq] at h
      subst h
      exact (leadsWith_iff pat []).mp hp
    · simp [findSub, hp] at h
  | cons c cs ih =>
    by_cases hp : leadsWith pat (c :: cs) = true
    · simp only [findSub, hp, if_true, Option.some.injEq] at h
      subst h
      exact (leadsWith_iff pat (c :: cs)).mp hp
    · simp only [findSub] at h
      rw [if_neg hp] at h
      cases hrec : findSub pat cs with
      | none => rw [hrec] at h; exact absurd h (by simp)
      | some n =>
        rw [hrec] at h
        injection h with h
        subst h
        simpa using ih n hrec

theorem findSub_min (pat s : List Char) (i : Nat)
    (h : findSub pat s = some i) :
    ∀ k < i, leadsWith pat (s.drop k) = false := by
  induction s generalizing i with
  | nil =>
    intro k hk
    by_cases hp : leadsWith pat [] = true
    · simp only [findSub, hp, if_true, Option.some.injEq] at h
      omega
    · simp [findSub, hp] at h
  | cons c cs ih =>
    intro k hk
    by_cases hp : leadsWith pat (c :: cs) = true
    · simp only [findSub, hp, if_true, Option.some.injEq] at h
      omega
    · simp only [findSub] at h
      rw [if_neg hp] at h
      cases hrec : findSub pat cs with
      | none => rw [hrec] at h; exact absurd h (by simp)
      | some n =>
        rw [hrec] at h
        injection h with h
        subst h
        cases k with
        | zero => simpa using hp
        | succ k =>
          have hk2 : k < n := by omega
          simpa using ih n hrec k hk2

theorem findSub_none (pat s : List Char)
    (h : findSub pat s = none) : ∀ k, leadsWith pat (s.drop k) = false := by
  induction s with
  | nil =>
    intro k
    by_cases hp : leadsWith pat [] = true
    · simp [findSub, hp] at h
    · simpa using hp
  | cons c cs ih =>
    intro k
    by_cases hp : leadsWith pat (c :: cs) = true
    · simp [findSub, hp] at h
    · simp only [findSub] at h
      rw [if_neg hp] at h
      cases hrec : findSub pat cs with
      | none =>
        cases k with
        | zero => simpa using hp
        | succ k => simpa using ih hrec k
      | some n => rw [hrec] at h; exact absurd h (by simp)

theorem findSub_of_leadsWith (pat s : List Char) (k : Nat)
    (h : leadsWith pat (s.drop k) = true) :
    ∃ i, findSub pat s = some i ∧ i ≤ k := by
  cases hf : findSub pat s with
  | none => exact absurd h (by simp [findSub_none pat s hf k])
  | some i =>
    refine ⟨i, rfl, ?_⟩
    by_contra hik
    have hmin := findSub_min pat s i hf k (by omega)
    rw [h] at hmin
    exact absurd hmin (by simp)

theorem findSub_bound (pat s : List Char) (i : Nat) (hpat : pat ≠ [])
    (h : findSub pat s = some i) : i + pat.length ≤ s.length := by
  obtain ⟨t, ht⟩ := findSub_some pat s i h
  have hlen : (s.drop i).length = pat.length + t.length := by
    rw [ht]; simp
  have hpos : 0 < pat.length := List.length_pos.mpr hpat
  simp only [List.length_drop] at hlen
  omega

theorem splitHashesFuel_congr :
    ∀ f g (s : List Char), s.length < f → s.length < g →
      splitHashesFuel f s = splitHashesFuel g s := by
  intro f
  induction f with
  | zero => intro g s hf; omega
  | succ f ih =>
    intro g s hf hg
    cases g with
    | zero => omega
    | succ g =>
      simp only [splitHashesFuel]
      cases hm : findSub markerL s with
      | none => rfl
      | some i =>
        have hb := findSub_bound markerL s i (by simp [markerL]) hm
        simp only [markerL, List.length_cons, List.length_nil] at hb
        have hlt : (s.drop (i + 3)).length < s.length := by
          simp only [List.length_drop]; omega
        exact congrArg _ (ih g (s.drop (i + 3)) (by omega) (by omega))

theorem splitOnHashes_of_none (s : List Char)
    (h : findSub markerL s = none) : splitOnHashes s = [s] := by
  simp [splitOnHashes, splitHashesFuel, h]

theorem splitOnHashes_of_some (s : List Char) (i : Nat)
    (h : findSub markerL s = some i) :
    splitOnHashes s = s.take i :: splitOnHashes (s.drop (i + 3)) := by
  have hb := findSub_bound markerL s i (by simp [markerL]) h
  simp only [markerL, List.length_cons, List.length_nil] at hb
  have hlt : (s.drop (i + 3)).length < s.length := by
    simp only [List.length_drop]; omega
  simp only [splitOnHashes, splitHashesFuel, h]
  exact congrArg _ (splitHashesFuel_congr s.length ((s.drop (i + 3)).length + 1)
    (s.drop (i + 3)) (by omega) (by omega))

example : parseScratchpad "<scratchpad>think</scratchpad>###  final " =
    "<scratchpad>think</scratchpad>" := by decide
example : parseAnswer "<scratchpad>think</scratchpad>###  final " = "final" := by decide
example : parseAnswer "no markers at all  " = "no markers at all" := by decide
example : parseScratchpad "no markers at all" = "No scratchpad content found." := by decide
example : parseAnswer "x### y ### z" = "y" := by decide
example : parseAnswer "<scratchpad>think</scratchpad>" = "" := by decide

/-! ## Auxiliary lemmas about the pipeline pieces -/

theorem length_pos_of_ne_empty (s : String) (h : s ≠ "") : 0 < s.length := by
  cases s with
  | mk data =>
    cases data with
    | nil => exact absurd rfl h
    | cons c cs => simp [String.length]

theorem joinSep_ne_empty (sep t : String) (ts : List String) (h : t ≠ "") :
    joinSep sep (t :: ts) ≠ "" := by
  cases ts with
  | nil => simpa [joinSep] using h
  | cons u us =>
    intro hcon
    have hlen := congrArg String.length hcon
    simp only [joinSep, String.length_append] at hlen
    have ht := length_pos_of_ne_empty t h
    have hz : ("" : String).length = 0 := rfl
    omega

theorem filterMap_id_map_some {α : Type} (l : List α) :
    (l.map some).filterMap id = l := by
  induction l with
  | nil => rfl
  | cons a l ih => simp [ih]

/-- The chunk count of the spec-modelled chunker matches the ceiling
formula of specification section 8 on every non-trivial input. -/
theorem chunkText_length (size overlap : Nat) (s : List Char)
    (hov : overlap < size) (hlen : overlap < s.length) :
    (chunkText size overlap s).length =
      (s.length - overlap + (size - overlap) - 1) / (size - overlap) := by
  rw [chunkText, dif_neg (by omega)]
  by_cases hs : s.length ≤ size
  · rw [if_pos hs]
    have hd : 0 < size - overlap := by omega
    rw [List.length_cons, List.length_nil]
    rw [eq_comm]
    exact Nat.div_eq_of_lt_le (by omega) (by omega)
  · rw [if_neg hs, List.length_cons]
    rw [chunkText_length size overlap (s.drop (size - overlap)) hov
      (by simp only [List.length_drop]; omega)]
    have hd : 0 < size - overlap := by omega
    simp only [List.length_drop]
    have e1 : s.length - (size - overlap) - overlap + (size - overlap) - 1 =
        s.length - overlap - 1 := by omega
    have e2 : s.length - overlap + (size - overlap) - 1 =
        (s.length - overlap - 1) + (size - overlap) := by omega
    rw [e1, e2, Nat.add_div_right _ hd]
termination_by s.length
decreasing_by
  simp only [List.length_drop]
  omega

example : (chunkText 1000 200 (List.replicate 2500 'a')).length = 3 := by
  rw [chunkText_length 1000 200 _ (by omega)
    (by rw [List.length_replicate]; omega)]
  rw [List.length_replicate]

/-! ## Claim C1 -/

/-- Claim C1 as stated is false: when the generation call fails after a
successful transcription, the `/api/ask` handler returns only the error
and its details; the transcription produced before the failure is not in
the payload.  Concretely, with a transcription oracle returning a text and
a failing generation oracle, the response carries the generation error and
a `transcription` field that is absent, not the transcribed text. -/
theorem C1_counterexample :
    (askHandler txOk embedOkU queryOkEmpty genFail reqAudio).error =
      some "Failed to get answer from AI model." ∧
    (askHandler txOk embedOkU queryOkEmpty genFail reqAudio).transcription = none ∧
    (askHandler txOk embedOkU queryOkEmpty genFail reqAudio).transcription ≠
      some "hello there" :=
  ⟨rfl, rfl, by decide⟩

/-- Claim C1 amended: on a generation failure after a successful
transcription, the handler returns status 500 with only the fixed error
message and the error details; every partial field (transcription, answer,
scratchpad) is dropped from the payload. -/
theorem C1_amended {V : Type} (transcribe : String → Except String String)
    (embedQuery : String → Except String V)
    (queryIndex : V → Except String (List (Option String)))
    (chatComplete : String → String → Except String String)
    (a t e : String) (ht : transcribe a = .ok t) (htne : t ≠ "")
    (hgen : ∀ p q2, chatComplete p q2 = .error e) :
    askHandler transcribe embedQuery queryIndex chatComplete ⟨some a, none⟩ =
      ⟨500, some "Failed to get answer from AI model.", some e,
        none, none, none, false⟩ := by
  simp only [askHandler, ht, hgen]
  rw [if_neg htne]

/-- Witness for `C1_amended` at a concrete run. -/
theorem C1_amended_witness :
    askHandler txOk embedOkU queryOkEmpty genFail ⟨some "recording.webm", none⟩ =
      ⟨500, some "Failed to get answer from AI model.", some "gpt down",
        none, none, none, false⟩ :=
  C1_amended txOk embedOkU queryOkEmpty genFail "recording.webm" "hello there"
    "gpt down" rfl (by decide) (fun _ _ => rfl)

/-! ## Claim C2 -/

/-- Claim C2: the retrieval stage never fails the request.  If the
query-embedding call fails, or the index query fails, the retriever
returns the explicit context-unavailable marker; a successful query with
zero matches returns the distinct no-relevant-context marker; a successful
query with non-empty matched texts returns them joined, in the returned
(descending-score) order, with the visible separator.  Finally, whatever
the retrieval oracles do, a request whose transcription and generation
succeed is answered with status 200. -/
theorem C2_retrieval_never_fails {V : Type}
    (embedQuery : String → Except String V)
    (queryIndex : V → Except String (List (Option String))) (q : String) :
    (∀ e, embedQuery q = .error e →
      retrieveContext embedQuery queryIndex q = contextUnavailable) ∧
    (∀ v e, embedQuery q = .ok v → queryIndex v = .error e →
      retrieveContext embedQuery queryIndex q = contextUnavailable) ∧
    (∀ v, embedQuery q = .ok v → queryIndex v = .ok [] →
      retrieveContext embedQuery queryIndex q = noRelevantContext) ∧
    noRelevantContext ≠ contextUnavailable ∧
    (∀ v (texts : List String), embedQuery q = .ok v →
      queryIndex v = .ok (texts.map some) → texts ≠ [] →
      (∀ t ∈ texts, t ≠ "") →
      retrieveContext embedQuery queryIndex q = joinSep contextSeparator texts) ∧
    (∀ (transcribe : String → Except String String)
        (chatComplete : String → String → Except String String) (a t c : String),
      transcribe a = .ok t → t ≠ "" → c ≠ "" →
      (∀ p q2, chatComplete p q2 = .ok c) →
      (askHandler transcribe embedQuery queryIndex chatComplete
        ⟨some a, none⟩).status = 200) := by
  refine ⟨?_, ?_, ?_, by decide, ?_, ?_⟩
  · intro e he
    simp [retrieveContext, he]
  · intro v e hv he
    simp [retrieveContext, hv, he]
  · intro v hv hq
    simp [retrieveContext, hv, hq, joinSep]
  · intro v texts hv hq hne hts
    simp only [retrieveContext, hv, hq]
    rw [filterMap_id_map_some]
    have hfilter : texts.filter (fun t => !(t == "")) = texts := by
      rw [List.filter_eq_self]
      intro t ht
      simpa using hts t ht
    rw [hfilter]
    cases texts with
    | nil => exact absurd rfl hne
    | cons t ts =>
      rw [if_neg (joinSep_ne_empty contextSeparator t ts (hts t (by simp)))]
  · intro transcribe chatComplete a t c hta htne hcne hcc
    simp only [askHandler, hta, hcc]
    rw [if_neg htne, if_neg hcne]

/-- Witness for `C2_retrieval_never_fails`: each degradation branch and the
success branch at concrete oracles. -/
theorem C2_witness :
    retrieveContext embedFailU queryOkEmpty "q" = contextUnavailable ∧
    retrieveContext embedOkU queryFailU "q" = contextUnavailable ∧
    retrieveContext embedOkU queryOkEmpty "q" = noRelevantContext ∧
    retrieveContext embedOkU queryTwoU "q" =
      joinSep contextSeparator ["high score chunk", "low score chunk"] ∧
    (askHandler txOk embedFailU queryFailU genOk ⟨some "a.webm", none⟩).status = 200 :=
  ⟨(C2_retrieval_never_fails embedFailU queryOkEmpty "q").1 "embed down" rfl,
   (C2_retrieval_never_fails embedOkU queryFailU "q").2.1 () "index down" rfl rfl,
   (C2_retrieval_never_fails embedOkU queryOkEmpty "q").2.2.1 () rfl rfl,
   (C2_retrieval_never_fails embedOkU queryTwoU "q").2.2.2.2.1 ()
     ["high score chunk", "low score chunk"] rfl rfl (by decide) (by decide),
   (C2_retrieval_never_fails embedFailU queryFailU "hello there").2.2.2.2.2
     txOk genOk "a.webm" "hello there" "<scratchpad>think</scratchpad>### fine"
     rfl (by decide) (by decide) (fun _ _ => rfl)⟩

/-! ## Claim C9 -/

/-- Claim C9 as stated is false: a request that supplies a plain-text
question and no audio is rejected with 400 "No audio file uploaded.";
the pipeline does not proceed to retrieval and generation. -/
theorem C9_counterexample :
    (askHandler txOk embedOkU queryOkEmpty genOk reqTextOnly).status = 400 ∧
    (askHandler txOk embedOkU queryOkEmpty genOk reqTextOnly).error =
      some "No audio file uploaded." ∧
    (askHandler txOk embedOkU queryOkEmpty genOk reqTextOnly).answer = none :=
  ⟨rfl, rfl, rfl⟩

/-- Claim C9 amended: the handler requires an audio file.  A request
without audio is rejected with 400 regardless of any supplied question,
and when audio is present the transcription stage always runs (it is not
skipped when a question is supplied: a transcription failure still fails
the request). -/
theorem C9_amended {V : Type} (transcribe : String → Except String String)
    (embedQuery : String → Except String V)
    (queryIndex : V → Except String (List (Option String)))
    (chatComplete : String → String → Except String String)
    (q : Option String) :
    (askHandler transcribe embedQuery queryIndex chatComplete ⟨none, q⟩).status = 400 ∧
    (askHandler transcribe embedQuery queryIndex chatComplete ⟨none, q⟩).error =
      some "No audio file uploaded." ∧
    (∀ a e, transcribe a = .error e →
      (askHandler transcribe embedQuery queryIndex chatComplete ⟨some a, q⟩).error =
        some "Failed to transcribe audio.") := by
  refine ⟨rfl, rfl, ?_⟩
  intro a e he
  simp [askHandler, he]

/-- Witness for `C9_amended` at concrete oracles. -/
theorem C9_amended_witness :
    (askHandler txFail embedOkU queryOkEmpty genOk
      ⟨none, some "What is NPV?"⟩).status = 400 ∧
    (askHandler txFail embedOkU queryOkEmpty genOk
      ⟨some "a.webm", some "What is NPV?"⟩).error =
      some "Failed to transcribe audio." :=
  ⟨(C9_amended txFail embedOkU queryOkEmpty genOk (some "What is NPV?")).1,
   (C9_amended txFail embedOkU queryOkEmpty genOk (some "What is NPV?")).2.2
     "a.webm" "whisper failed" rfl⟩

/-! ## Claim C10 -/

/-- Claim C10 is right about the intent and the code violates it: on the
transcription-failure exit path of `askHandler`, the handler returns 500
inside the inner catch, before the `fs.unlinkSync` cleanup line is
reached, so the temporary audio file written by multer stays on disk.
On the success path the file is deleted. -/
theorem C10_temp_file_leak :
    (askHandler txFail embedOkU queryOkEmpty genOk reqAudio).status = 500 ∧
    (askHandler txFail embedOkU queryOkEmpty genOk reqAudio).error =
      some "Failed to transcribe audio." ∧
    (askHandler txFail embedOkU queryOkEmpty genOk reqAudio).tempAudioRemains = true ∧
    (askHandler txOk embedOkU queryOkEmpty genOk reqAudio).tempAudioRemains = false :=
  ⟨rfl, rfl, rfl, rfl⟩

/-! ## Claim C6 -/

theorem buildVectorsFrom_abort {V : Type} (embed : String → Except String V)
    (fn : String) (c : Chunk) (e : String)
    (he : embed c.pageContent = .error e) :
    ∀ i (chunks : List Chunk), c ∈ chunks →
      ∃ e2, buildVectorsFrom embed fn i chunks = .error e2 := by
  intro i chunks
  induction chunks generalizing i with
  | nil => intro hc; cases hc
  | cons d rest ih =>
    intro hc
    cases hd : embed d.pageContent with
    | error e2 => exact ⟨e2, by simp [buildVectorsFrom, hd]⟩
    | ok v =>
      rcases List.mem_cons.mp hc with hceq | hmem
      · subst hceq
        rw [hd] at he
        exact absurd he (by simp)
      · obtain ⟨e2, h2⟩ := ih (i + 1) hmem
        exact ⟨e2, by simp [buildVectorsFrom, hd, h2]⟩

/-- Claim C6: if any chunk of the document makes the embedding call fail,
the whole ingestion aborts with the embedding-failure response and nothing
at all is upserted to the index — no partial upsert. -/
theorem C6_no_partial_upsert {V : Type} (embed : String → Except String V)
    (upsert : List (PineRecord V) → Except String Unit)
    (fn : String) (chunks : List Chunk) (c : Chunk) (e : String)
    (hc : c ∈ chunks) (he : embed c.pageContent = .error e) :
    (uploadHandler embed upsert fn chunks).response =
      .error "Failed to generate embeddings." ∧
    (uploadHandler embed upsert fn chunks).written = [] := by
  obtain ⟨e2, h2⟩ := buildVectorsFrom_abort embed fn c e he 0 chunks hc
  constructor <;> simp [uploadHandler, h2]

/-- Witness for `C6_no_partial_upsert`: a two-chunk document whose second
chunk fails to embed; nothing is upserted. -/
theorem C6_witness :
    (uploadHandler embedFailEmptyU upsOkU "f" chunksWithBad).response =
      .error "Failed to generate embeddings." ∧
    (uploadHandler embedFailEmptyU upsOkU "f" chunksWithBad).written = [] :=
  C6_no_partial_upsert embedFailEmptyU upsOkU "f" chunksWithBad
    ⟨"", 2⟩ "embedding failed" (by decide) rfl

/-! ## Claim C8 -/

/-- Claim C8 as stated is false: the error reported on a mid-batch upsert
failure does not carry the count of successfully written batches.  Two
ingestions of the same 101-chunk document in which respectively zero
batches and one batch were written before the failure produce the very
same response, so the response cannot carry that count. -/
theorem C8_counterexample :
    (uploadHandler embedOkU upsFail1 "f" chunks101).response =
      (uploadHandler embedOkU upsFail2 "f" chunks101).response ∧
    (uploadHandler embedOkU upsFail1 "f" chunks101).written.length = 0 ∧
    (uploadHandler embedOkU upsFail2 "f" chunks101).written.length = 1 :=
  ⟨rfl, rfl, rfl⟩

/-- Claim C8 amended: on a mid-batch upsert failure the handler reports the
fixed index-write-failure message — without the count of successfully
written batches — and the batches written before the failure stay
written. -/
theorem C8_amended {V : Type} (embed : String → Except String V)
    (upsert : List (PineRecord V) → Except String Unit)
    (fn : String) (chunks : List Chunk) (vectors : List (PineRecord V))
    (e : String)
    (hv : buildVectorsFrom embed fn 0 chunks = .ok vectors)
    (he : (upsertLoop upsert vectors).err = some e) :
    (uploadHandler embed upsert fn chunks).response =
      .error "Failed to save embeddings to database." ∧
    (uploadHandler embed upsert fn chunks).written =
      (upsertLoop upsert vectors).written := by
  have hne : vectors ≠ [] := by
    intro hnil
    subst hnil
    simp [upsertLoop, upsertLoopFuel] at he
  have hpos : 0 < vectors.length := List.length_pos.mpr hne
  constructor <;> simp [uploadHandler, hv, hpos, he]

/-- Witness for `C8_amended`: a one-chunk document whose only upsert batch
fails. -/
theorem C8_amended_witness :
    (uploadHandler embedOkU upsFail1 "f" chunks1).response =
      .error "Failed to save embeddings to database." ∧
    (uploadHandler embedOkU upsFail1 "f" chunks1).written =
      (upsertLoop upsFail1 [⟨"f-chunk-0", (), "t", "f", 0⟩]).written :=
  C8_amended embedOkU upsFail1 "f" chunks1
    [⟨"f-chunk-0", (), "t", "f", 0⟩] "pinecone down" rfl rfl

/-! ## Claim C3 -/

/-- Claim C3 as stated is false: when the marker occurs more than once,
the answer is only the trimmed text between the first two occurrences,
not all of the trimmed text after the first marker.  On
`"x### y ### z"` the parser answers `"y"`, while the trimmed text after
the marker is `"y ### z"`. -/
theorem C3_counterexample :
    parseAnswer "x### y ### z" = "y" ∧
    String.mk (trimChars " y ### z".data) = "y ### z" ∧
    parseAnswer "x### y ### z" ≠ String.mk (trimChars " y ### z".data) :=
  ⟨by decide, by decide, by decide⟩

/-- Claim C3 amended: for a raw output containing the marker, the answer
is the trimmed text between the first marker occurrence and the next one
(or the end of the text), provided that segment does not trim to
nothing. -/
theorem C3_amended (raw : String) (i : Nat)
    (h : findSub markerL raw.data = some i)
    (hne : trimChars (betweenFirstMarkers raw.data i) ≠ []) :
    parseAnswer raw = String.mk (trimChars (betweenFirstMarkers raw.data i)) := by
  have h2 : (splitOnHashes raw.data).get? 1 = some (betweenFirstMarkers raw.data i) := by
    rw [splitOnHashes_of_some raw.data i h]
    unfold betweenFirstMarkers
    cases hr : findSub markerL (raw.data.drop (i + 3)) with
    | none => rw [splitOnHashes_of_none _ hr]; rfl
    | some j => rw [splitOnHashes_of_some _ _ hr]; rfl
  unfold parseAnswer
  rw [h2]
  simp only
  rw [if_neg hne]

/-- Witness for `C3_amended` at the multi-marker input. -/
theorem C3_amended_witness :
    parseAnswer "x### y ### z" =
      String.mk (trimChars (betweenFirstMarkers "x### y ### z".data 1)) :=
  C3_amended "x### y ### z" 1 (by decide) (by decide)

/-! ## Claim C4 -/

/-- Claim C4 as stated is false: the parser does always return both
fields, but the answer is not non-empty for every non-empty model output.
For an output consisting solely of a scratchpad block, removing the
reasoning block and trimming leaves the empty string. -/
theorem C4_counterexample :
    parseAnswer "<scratchpad>think</scratchpad>" = "" ∧
    ("<scratchpad>think</scratchpad>" : String) ≠ "" :=
  ⟨by decide, by decide⟩

/-- Claim C4 amended: for every raw output with no marker, the answer is
the raw text with the (first) reasoning block removed and trimmed; this
answer can be empty when the output consists solely of the reasoning
block, so a non-empty output does not guarantee a non-empty answer. -/
theorem C4_amended (raw : String)
    (h : findSub markerL raw.data = none) :
    parseAnswer raw = String.mk (trimChars (removeScratchpad raw.data)) := by
  unfold parseAnswer
  rw [splitOnHashes_of_none _ h]
  rfl

/-- Witness for `C4_amended` at a marker-free input. -/
theorem C4_amended_witness :
    parseAnswer "<scratchpad>a</scratchpad> done " =
      String.mk (trimChars (removeScratchpad "<scratchpad>a</scratchpad> done ".data)) :=
  C4_amended "<scratchpad>a</scratchpad> done " (by decide)

/-! ## Claim C5 -/

/-- Claim C5: whenever the raw output contains a reasoning block (an
opening delimiter with a closing delimiter after it), the parsed
scratchpad is the matched block with both delimiters included, and that
block is a contiguous piece of the raw output; otherwise the scratchpad is
the explicit placeholder string. -/
theorem C5_scratchpad_extraction (raw : String) :
    (hasScratchpadBlock raw.data →
      ∃ content pre post,
        parseScratchpad raw = String.mk (openTagL ++ content ++ closeTagL) ∧
        raw.data = pre ++ openTagL ++ content ++ closeTagL ++ post) ∧
    (¬ hasScratchpadBlock raw.data →
      parseScratchpad raw = "No scratchpad content found.") := by
  constructor
  · rintro ⟨i, j, hopen, hclose⟩
    obtain ⟨i0, hfo, hi0⟩ := findSub_of_leadsWith openTagL raw.data i hopen
    have hcl2 : leadsWith closeTagL
        ((raw.data.drop (i0 + 12)).drop (i + j - i0)) = true := by
      rw [List.drop_drop]
      have e : (i0 + 12) + (i + j - i0) = i + 12 + j := by omega
      rw [e]
      exact hclose
    obtain ⟨j1, hfc, hj1⟩ :=
      findSub_of_leadsWith closeTagL (raw.data.drop (i0 + 12)) (i + j - i0) hcl2
    obtain ⟨t0, ht0⟩ := findSub_some openTagL raw.data i0 hfo
    obtain ⟨t1, ht1⟩ := findSub_some closeTagL (raw.data.drop (i0 + 12)) j1 hfc
    have hOlen : openTagL.length = 12 := by decide
    have hClen : closeTagL.length = 13 := by decide
    have hdrop12 : raw.data.drop (i0 + 12) = t0 := by
      have e : raw.data.drop (i0 + 12) = (raw.data.drop i0).drop openTagL.length := by
        rw [List.drop_drop, hOlen]
      rw [e, ht0, List.drop_left]
    have hj1b : j1 + 13 ≤ t0.length := by
      have hb := findSub_bound closeTagL (raw.data.drop (i0 + 12)) j1 (by decide) hfc
      rw [hdrop12, hClen] at hb
      exact hb
    rw [hdrop12] at ht1
    have ht0split : t0 = t0.take j1 ++ (closeTagL ++ t1) := by
      conv_lhs => rw [← List.take_append_drop j1 t0]
      rw [ht1]
    have hspan : scratchpadSpan raw.data = some (i0, 12 + j1 + 13) := by
      simp only [scratchpadSpan, hfo, hfc]
    refine ⟨t0.take j1, raw.data.take i0, t1, ?_, ?_⟩
    · simp only [parseScratchpad, hspan]
      congr 1
      rw [ht0]
      have e1 : 12 + j1 + 13 = openTagL.length + (j1 + 13) := by omega
      rw [e1, List.take_append]
      have hlen1 : (t0.take j1).length = j1 := by
        rw [List.length_take]; omega
      have e2 : t0.take (j1 + 13) = t0.take j1 ++ closeTagL := by
        conv_lhs => rw [ht0split]
        have e3 : j1 + 13 = (t0.take j1).length + closeTagL.length := by omega
        rw [e3, List.take_append, List.take_left]
      rw [e2, List.append_assoc]
    · conv_lhs => rw [← List.take_append_drop i0 raw.data, ht0, ht0split]
      simp only [List.append_assoc]
  · intro hnb
    cases hfo : findSub openTagL raw.data with
    | none =>
      have hspan : scratchpadSpan raw.data = none := by
        simp only [scratchpadSpan, hfo]
      simp only [parseScratchpad, hspan]
    | some i0 =>
      cases hfc : findSub closeTagL (raw.data.drop (i0 + 12)) with
      | none =>
        have hspan : scratchpadSpan raw.data = none := by
          simp only [scratchpadSpan, hfo, hfc]
        simp only [parseScratchpad, hspan]
      | some j1 =>
        exfalso
        apply hnb
        obtain ⟨t0, ht0⟩ := findSub_some openTagL raw.data i0 hfo
        obtain ⟨t1, ht1⟩ := findSub_some closeTagL (raw.data.drop (i0 + 12)) j1 hfc
        refine ⟨i0, j1, ?_, ?_⟩
        · rw [leadsWith_iff]; exact ⟨t0, ht0⟩
        · rw [leadsWith_iff]
          refine ⟨t1, ?_⟩
          have e : i0 + 12 + j1 = (i0 + 12) + j1 := rfl
          rw [e, ← List.drop_drop]
          exact ht1

/-- Witness for `C5_scratchpad_extraction` on a concrete output with a
reasoning block. -/
theorem C5_witness :
    ∃ content pre post,
      parseScratchpad "a<scratchpad>think</scratchpad>b" =
        String.mk (openTagL ++ content ++ closeTagL) ∧
      "a<scratchpad>think</scratchpad>b".data =
        pre ++ openTagL ++ content ++ closeTagL ++ post :=
  (C5_scratchpad_extraction "a<scratchpad>think</scratchpad>b").1
    ⟨1, 5, by decide, by decide⟩

/-! ## Claim C7 -/

theorem buildVectorsFrom_ok_ids {V : Type} (embed : String → Except String V)
    (fn : String) :
    ∀ i (chunks : List Chunk) vectors,
      buildVectorsFrom embed fn i chunks = .ok vectors →
      vectors.map (fun r => r.id) =
        (List.range chunks.length).map (fun k => fn ++ "-chunk-" ++ toString (i + k)) := by
  intro i chunks
  induction chunks generalizing i with
  | nil =>
    intro vectors hv
    simp only [buildVectorsFrom] at hv
    injection hv with hv
    subst hv
    simp
  | cons d rest ih =>
    intro vectors hv
    simp only [buildVectorsFrom] at hv
    cases hd : embed d.pageContent with
    | error e => rw [hd] at hv; exact absurd hv (by simp)
    | ok v =>
      rw [hd] at hv
      cases hr : buildVectorsFrom embed fn (i + 1) rest with
      | error e => rw [hr] at hv; exact absurd hv (by simp)
      | ok tail =>
        rw [hr] at hv
        injection hv with hv
        subst hv
        simp only [List.map_cons, List.length_cons, List.range_succ_eq_map,
          List.map_map]
        congr 1
        rw [ih (i + 1) tail hr]
        apply List.map_congr_left
        intro k _
        simp only [Function.comp_apply]
        have e : i + 1 + k = i + (k + 1) := by omega
        rw [e]

/-- Claim C7 as stated is self-contradictory on its own concrete example:
on a 2500-character document with `size = 1000` and `overlap = 200`, the
spec-modelled sliding-window chunker produces 3 chunks, which is what the
ceiling formula of the claim gives, not the 4 chunks the claim asserts. -/
theorem C7_counterexample :
    (chunkText 1000 200 doc2500).length = 3 ∧
    (doc2500.length - 200 + (1000 - 200) - 1) / (1000 - 200) = 3 ∧
    (chunkText 1000 200 doc2500).length ≠ 4 := by
  have hl : doc2500.length = 2500 := by unfold doc2500; rw [List.length_replicate]
  have hcount : (chunkText 1000 200 doc2500).length = 3 := by
    rw [chunkText_length 1000 200 doc2500 (by omega) (by omega), hl]
  exact ⟨hcount, by rw [hl], by rw [hcount]; omega⟩

/-- Claim C7 amended: for valid configurations on non-trivial input, the
spec-modelled chunker emits windows `size - overlap` apart and its chunk
count equals `ceil((len - overlap) / (size - overlap))`; the
2500-character document with `size = 1000`, `overlap = 200` yields exactly
3 chunks (not 4), and the records built from them carry pairwise distinct
ids. -/
theorem C7_amended (size overlap : Nat) (s : List Char)
    (hov : overlap < size) (hlen : overlap < s.length) :
    (chunkText size overlap s).length =
      (s.length - overlap + (size - overlap) - 1) / (size - overlap) ∧
    (chunkText 1000 200 doc2500).length = 3 ∧
    (∀ vectors, buildVectorsFrom embedOkU "doc" 0 doc2500Chunks = .ok vectors →
      (vectors.map (fun r => r.id)).Nodup) := by
  have hl : doc2500.length = 2500 := by unfold doc2500; rw [List.length_replicate]
  have hcount : (chunkText 1000 200 doc2500).length = 3 := by
    rw [chunkText_length 1000 200 doc2500 (by omega) (by omega), hl]
  refine ⟨chunkText_length size overlap s hov hlen, hcount, ?_⟩
  intro vectors hv
  rw [buildVectorsFrom_ok_ids embedOkU "doc" 0 doc2500Chunks vectors hv]
  have hc : doc2500Chunks.length = 3 := by
    rw [doc2500Chunks, List.length_map, hcount]
  rw [hc]
  decide

/-- Witness for `C7_amended` at the concrete configuration of the spec. -/
theorem C7_witness :
    (chunkText 1000 200 doc2500).length =
      (doc2500.length - 200 + (1000 - 200) - 1) / (1000 - 200) :=
  (C7_amended 1000 200 doc2500 (by omega)
    (by unfold doc2500; rw [List.length_replicate]; omega)).1
